import Mathlib

/-!
Verification development for the Text-summarization repository
(src/info/app.py and src/info/taapp.py).

Both files are single-screen applications that take a URL, extract text
(a video transcript, or the visible text of a web page) and send it to a
text-generation service. We embed the URL classifier, the page text
extraction, the transcript join and the whole request pipeline of each
file, with the three external collaborators (page fetch, transcript
fetch, text generation) passed in as oracle functions, and the pipeline
returning the caller-visible outcome together with the list of external
calls it performed.
-/

/-- Character class of the video-id regex in both files:
`[a-zA-Z0-9_-]` (ASCII letters, digits, underscore, hyphen). -/
def isIdChar (c : Char) : Bool := c.isAlphanum || c = '_' || c = '-'

/-- Literal alternative `v=` of the regex `(?:v=|youtu\.be/)`. -/
def keyV : List Char := ['v', '=']

/-- Literal alternative `youtu.be/` of the regex `(?:v=|youtu\.be/)`. -/
def keyShort : List Char := ['y', 'o', 'u', 't', 'u', '.', 'b', 'e', '/']

/-- First list is a literal match at the head of the second list
(how a regex literal alternative is tried at one position). -/
def startsWith : List Char → List Char → Bool
  | [], _ => true
  | _ :: _, [] => false
  | p :: ps, c :: cs => p = c && startsWith ps cs

namespace App

/-- Group `([a-zA-Z0-9_-]{11})` of the pattern in app.py, tried right
after a matched alternative: succeeds exactly when the next 11
characters exist and all belong to the class, returning them. -/
def takeId (l : List Char) : Option (List Char) :=
  if (l.take 11).length = 11 && (l.take 11).all isIdChar then some (l.take 11)
  else none

/-- One attempt of the pattern `(?:v=|youtu\.be/)([a-zA-Z0-9_-]{11})`
of app.py at a single position of the subject string. -/
def tryHere (l : List Char) : Option (List Char) :=
  if startsWith keyV l then takeId (l.drop 2)
  else if startsWith keyShort l then takeId (l.drop 9)
  else none

/-- The scan of `re.search` in app.py: try the pattern at each position
from the left, return the first (leftmost) successful group. -/
def findMatch : List Char → Option (List Char)
  | [] => none
  | c :: rest =>
    match tryHere (c :: rest) with
    | some id => some id
    | none => findMatch rest

/-- Embeds `extract_video_id` of app.py (lines 34-42): returns the
11-character group of the leftmost regex match, else none. -/
def extract_video_id (url : String) : Option String :=
  (findMatch url.data).map String.mk

end App

/-- Python str.strip of both files (used by BeautifulSoup when it strips
each string): remove whitespace from both ends of a string. -/
def pyStrip (s : String) : String :=
  String.mk (((s.data.dropWhile Char.isWhitespace).reverse.dropWhile Char.isWhitespace).reverse)

/-- Python str.join as both files call it (sep.join of a list): empty
for an empty list, otherwise the elements with sep between consecutive
elements. -/
def pyJoin (sep : String) : List String → String
  | [] => ""
  | [s] => s
  | s :: rest => s ++ sep ++ pyJoin sep rest

/-- Join rule written from the words of the spec: the pieces joined with
single spaces, in their original order. Compared against the code
functions in the theorems below. -/
def specJoin : List String → String
  | [] => ""
  | [s] => s
  | s :: rest => s ++ " " ++ specJoin rest

/-- A Python exception as the pipeline sees it: a class (the kind) and
the text that str(e) renders. The handler in both files only ever uses
the rendered text. -/
structure Exn where
  kind : String
  msg : String
deriving DecidableEq

/-- One transcript record returned by the transcript service. The code
of both files only reads the text field of each record; the timing
fields are never read and are omitted from the model. -/
structure Segment where
  text : String
deriving DecidableEq

mutual
/-- Parsed markup as BeautifulSoup presents it: text nodes and tagged
elements with an ordered child list (the parser itself is an external
library and is not modelled). A whole page is wrapped in a root node
whose children are the top-level nodes. -/
inductive Html where
  | text : String → Html
  | elem : String → HtmlList → Html
/-- Ordered children of an element node. -/
inductive HtmlList where
  | nil : HtmlList
  | cons : Html → HtmlList → HtmlList
end

/-- An HTTP response of requests.get: a status code and the parsed body
(response.content handed to BeautifulSoup). -/
structure Response where
  status : Nat
  body : Html

/-- External calls a pipeline run performs, in order. The gen effect
carries the fully rendered prompt of the single LLMChain call; the
genMapReduce effect carries the document content handed to the
map-reduce summarize chain. -/
inductive Effect where
  | fetchPage : String → Effect
  | fetchTranscript : String → Effect
  | gen : String → Effect
  | genMapReduce : String → Effect
deriving DecidableEq

/-- What the user sees at the end of a run: either the displayed
summary (st.subheader + st.write) or one error message (st.error). -/
inductive Outcome where
  | displayed : String → Outcome
  | errorMsg : String → Outcome
deriving DecidableEq

namespace App

mutual
/-- Recursive tag search of soup.find in app.py over one node: an
element with the wanted tag is returned itself, otherwise its children
are searched in document order. -/
def findTagNode (t : String) : Html → Option Html
  | .text _ => none
  | .elem tag cs => if tag = t then some (Html.elem tag cs) else findTagList t cs
/-- Recursive tag search of soup.find in app.py over a child list:
first hit in document order wins. -/
def findTagList (t : String) : HtmlList → Option Html
  | .nil => none
  | .cons c cs =>
    match findTagNode t c with
    | some m => some m
    | none => findTagList t cs
end

/-- Embeds soup.find of app.py line 71: the soup object is the document
root, and find searches its descendants (not the root itself). -/
def soupFind (t : String) : Html → Option Html
  | .text _ => none
  | .elem _ cs => findTagList t cs

mutual
/-- All string nodes below one node, in document order (the generator
behind get_text and stripped_strings in app.py). -/
def nodeStrings : Html → List String
  | .text s => [s]
  | .elem _ cs => listStrings cs
/-- All string nodes below a child list, in document order. -/
def listStrings : HtmlList → List String
  | .nil => []
  | .cons c cs => nodeStrings c ++ listStrings cs
end

/-- The stripped_strings generator of BeautifulSoup as app.py uses it
(also the generator behind get_text with strip=True): every string
node stripped, empty results skipped. -/
def strippedStrings (n : Html) : List String :=
  ((nodeStrings n).map pyStrip).filter (fun s => !(s == ""))

/-- Embeds the page branch of app.py lines 71-77: text of the first
main element via get_text(separator=a space, strip=True) when a main
element exists, else all stripped strings of the page joined with
spaces. In the BeautifulSoup sources both calls join the same stripped
string generator with the separator, which is what this definition
does in both branches. -/
def pageText (soup : Html) : String :=
  match soupFind "main" soup with
  | some m => pyJoin " " (strippedStrings m)
  | none => pyJoin " " (strippedStrings soup)

/-- Embeds the transcript join of app.py line 61:
a space joined over the text field of every transcript record. -/
def joinTranscript (segs : List Segment) : String :=
  pyJoin " " (segs.map Segment.text)

/-- The single prompt template of app.py lines 87-90, rendered on a
text (chain.run substitutes the text into the template). -/
def directPrompt (t : String) : String :=
  "Summarize the following content in simple terms:\n\n" ++ t

/-- The message st.error shows in the catch-all handler of app.py line
107: a fixed prefix followed by the rendered exception. -/
def errorText (e : Exn) : String := "Failed to summarize content: " ++ e.msg

/-- Embeds the whole button handler of app.py lines 47-107 as a
function of the three external collaborators (page fetch, transcript
fetch, text generation) and the URL. Returns the caller-visible
outcome and the ordered list of external calls performed. Any raised
exception reaches the single catch-all handler. -/
def run (fp : String → Except Exn Response) (ft : String → Except Exn (List Segment))
    (g : String → Except Exn String) (url : String) : Outcome × List Effect :=
  if url = "" then (.errorMsg "Please enter a URL", [])
  else
    match extract_video_id url with
    | some vid =>
      match ft vid with
      | .error e => (.errorMsg (errorText e), [.fetchTranscript vid])
      | .ok segs =>
        let t := joinTranscript segs
        match g (directPrompt t) with
        | .error e => (.errorMsg (errorText e), [.fetchTranscript vid, .gen (directPrompt t)])
        | .ok s => (.displayed s, [.fetchTranscript vid, .gen (directPrompt t)])
    | none =>
      match fp url with
      | .error e => (.errorMsg (errorText e), [.fetchPage url])
      | .ok resp =>
        let t := pageText resp.body
        match g (directPrompt t) with
        | .error e => (.errorMsg (errorText e), [.fetchPage url, .gen (directPrompt t)])
        | .ok s => (.displayed s, [.fetchPage url, .gen (directPrompt t)])

end App

namespace Taapp

/-- Group `([a-zA-Z0-9_-]{11})` of the pattern in taapp.py, tried right
after a matched alternative (the pattern literal is the same as in
app.py). -/
def takeId (l : List Char) : Option (List Char) :=
  if (l.take 11).length = 11 && (l.take 11).all isIdChar then some (l.take 11)
  else none

/-- One attempt of the pattern `(?:v=|youtu\.be/)([a-zA-Z0-9_-]{11})`
of taapp.py at a single position of the subject string. -/
def tryHere (l : List Char) : Option (List Char) :=
  if startsWith keyV l then takeId (l.drop 2)
  else if startsWith keyShort l then takeId (l.drop 9)
  else none

/-- The scan of `re.search` in taapp.py: leftmost successful position
wins. -/
def findMatch : List Char → Option (List Char)
  | [] => none
  | c :: rest =>
    match tryHere (c :: rest) with
    | some id => some id
    | none => findMatch rest

/-- Embeds `extract_video_id` of taapp.py (lines 42-49). -/
def extract_video_id (url : String) : Option String :=
  (findMatch url.data).map String.mk

mutual
/-- Recursive tag search of soup.find in taapp.py over one node. -/
def findTagNode (t : String) : Html → Option Html
  | .text _ => none
  | .elem tag cs => if tag = t then some (Html.elem tag cs) else findTagList t cs
/-- Recursive tag search of soup.find in taapp.py over a child list. -/
def findTagList (t : String) : HtmlList → Option Html
  | .nil => none
  | .cons c cs =>
    match findTagNode t c with
    | some m => some m
    | none => findTagList t cs
end

/-- Embeds soup.find of taapp.py line 116. -/
def soupFind (t : String) : Html → Option Html
  | .text _ => none
  | .elem _ cs => findTagList t cs

mutual
/-- All string nodes below one node, in document order (taapp.py). -/
def nodeStrings : Html → List String
  | .text s => [s]
  | .elem _ cs => listStrings cs
/-- All string nodes below a child list, in document order (taapp.py). -/
def listStrings : HtmlList → List String
  | .nil => []
  | .cons c cs => nodeStrings c ++ listStrings cs
end

/-- The stripped_strings generator as taapp.py uses it. -/
def strippedStrings (n : Html) : List String :=
  ((nodeStrings n).map pyStrip).filter (fun s => !(s == ""))

/-- Embeds the page branch of taapp.py lines 116-121: same main-first
rule and same joining rule as app.py. -/
def pageText (soup : Html) : String :=
  match soupFind "main" soup with
  | some m => pyJoin " " (strippedStrings m)
  | none => pyJoin " " (strippedStrings soup)

/-- Embeds the transcript join of taapp.py line 71. -/
def joinTranscript (segs : List Segment) : String :=
  pyJoin " " (segs.map Segment.text)

/-- The website prompt template of taapp.py lines 124-127, rendered on
a text. -/
def sitePrompt (t : String) : String :=
  "Summarize the following website content in simple terms:\n\n" ++ t

/-- The message st.error shows in the catch-all handler of taapp.py
line 137. -/
def errorText (e : Exn) : String := "Failed to summarize content: " ++ e.msg

/-- Embeds the button handler of taapp.py lines 54-137. Besides the
three collaborators of app.py it takes the map-reduce summarize chain
as a fourth oracle mr, called on the whole transcript text in the
video branch; the page branch is a single direct call as in app.py. -/
def run (fp : String → Except Exn Response) (ft : String → Except Exn (List Segment))
    (g : String → Except Exn String) (mr : String → Except Exn String)
    (url : String) : Outcome × List Effect :=
  if url = "" then (.errorMsg "Please enter a URL", [])
  else
    match extract_video_id url with
    | some vid =>
      match ft vid with
      | .error e => (.errorMsg (errorText e), [.fetchTranscript vid])
      | .ok segs =>
        let t := joinTranscript segs
        match mr t with
        | .error e => (.errorMsg (errorText e), [.fetchTranscript vid, .genMapReduce t])
        | .ok s => (.displayed s, [.fetchTranscript vid, .genMapReduce t])
    | none =>
      match fp url with
      | .error e => (.errorMsg (errorText e), [.fetchPage url])
      | .ok resp =>
        let t := pageText resp.body
        match g (sitePrompt t) with
        | .error e => (.errorMsg (errorText e), [.fetchPage url, .gen (sitePrompt t)])
        | .ok s => (.displayed s, [.fetchPage url, .gen (sitePrompt t)])

end Taapp

mutual
/-- Written from the words of the spec: a node contains an element with
the given tag (itself included). Used to state when a main content
element exists, independently of the find function of the code. -/
def containsTagNode (t : String) : Html → Bool
  | .text _ => false
  | .elem tag cs => (tag == t) || containsTagList t cs
/-- Written from the words of the spec: some node of the list contains
an element with the given tag. -/
def containsTagList (t : String) : HtmlList → Bool
  | .nil => false
  | .cons c cs => containsTagNode t c || containsTagList t cs
end

/-- Written from the words of the spec: the page (the descendants of
the document root) has a main element. -/
def soupHasMain : Html → Bool
  | .text _ => false
  | .elem _ cs => containsTagList "main" cs

/-- Written from the words of the claim for C1: the URL contains `v=`
or `youtu.be/` immediately followed by 11 characters drawn from the id
class (whatever follows those 11 characters is unconstrained). -/
def videoPattern (l : List Char) : Prop :=
  ∃ pre key idc rest, (key = keyV ∨ key = keyShort) ∧
    l = pre ++ (key ++ (idc ++ rest)) ∧ idc.length = 11 ∧ idc.all isIdChar = true

/-- Unit count of a text in the sense of the spec glossary, measured in
characters. -/
def unitCount (s : String) : Nat := s.length

/-- An HTTP status code counts as a success exactly in the 2xx range
(what requests and the spec call a success status). -/
def isSuccessStatus (n : Nat) : Bool := 200 ≤ n && n < 300

/-- Stages at which a run can fail, used to state whether the
caller-visible outcome identifies the failing stage. -/
inductive Stage where
  | transcriptFetch
  | pageFetch
  | generation
deriving DecidableEq

/-- The effect is the page fetch call. -/
def isFetchPageEff : Effect → Bool
  | .fetchPage _ => true
  | _ => false

/-- The effect is the transcript fetch call. -/
def isFetchTranscriptEff : Effect → Bool
  | .fetchTranscript _ => true
  | _ => false

/-- The effect is a call to the text generation service, direct or
through the map-reduce chain. -/
def isGenEff : Effect → Bool
  | .gen _ => true
  | .genMapReduce _ => true
  | _ => false

/-- C4 claim as the spec states it: a non-video URL whose fetch returns
a response with a non-success status fails (no summary is displayed)
and no generation call is reached. -/
def C4claim : Prop :=
  ∀ fp ft g url st body, url ≠ "" →
    App.extract_video_id url = none →
    fp url = Except.ok ⟨st, body⟩ →
    isSuccessStatus st = false →
    (∀ s, (App.run fp ft g url).1 ≠ Outcome.displayed s) ∧
    (∀ p, Effect.gen p ∉ (App.run fp ft g url).2)

/-- C5 claim as the spec states it: the choice between the single
direct call and the map-reduce pipeline is made on input size against
a bound, for every bound: a direct call only happens on content within
the bound, a map-reduce run only on content above it. -/
def C5claim : Prop :=
  ∀ (maxUnits : Nat) fp ft g mr url t,
    (Effect.gen (App.directPrompt t) ∈ (App.run fp ft g url).2 →
      unitCount t ≤ maxUnits) ∧
    (Effect.genMapReduce t ∈ (Taapp.run fp ft g mr url).2 →
      maxUnits < unitCount t)

/-- C6 claim as the spec states it: there is an error kind readable
off the caller-visible outcome that names a transcript failure as a
transcript-unavailable error and a page-fetch failure as a fetch
error, so the two are distinct to the caller. -/
def C6claim : Prop :=
  ∃ f : Outcome → String,
    (∀ fp ft g url vid e, url ≠ "" → App.extract_video_id url = some vid →
      ft vid = Except.error e →
      f (App.run fp ft g url).1 = "TranscriptUnavailableError") ∧
    (∀ fp ft g url e, url ≠ "" → App.extract_video_id url = none →
      fp url = Except.error e → f (App.run fp ft g url).1 = "FetchError")

/-- C8 claim as the spec states it: every failure surfaces as one
error message (none swallowed), no external call is issued twice in a
run, and the surfaced message identifies the failing stage, here read
as a stage function of the caller-visible outcome. -/
def C8claim : Prop :=
  (∀ fp ft g url vid e, url ≠ "" → App.extract_video_id url = some vid →
    ft vid = Except.error e → ∃ m, (App.run fp ft g url).1 = Outcome.errorMsg m) ∧
  (∀ fp ft g url,
    (App.run fp ft g url).2.countP isFetchPageEff ≤ 1 ∧
    (App.run fp ft g url).2.countP isFetchTranscriptEff ≤ 1 ∧
    (App.run fp ft g url).2.countP isGenEff ≤ 1) ∧
  (∃ f : Outcome → Stage,
    (∀ fp ft g url vid e, url ≠ "" → App.extract_video_id url = some vid →
      ft vid = Except.error e →
      f (App.run fp ft g url).1 = Stage.transcriptFetch) ∧
    (∀ fp ft g url e, url ≠ "" → App.extract_video_id url = none →
      fp url = Except.error e → f (App.run fp ft g url).1 = Stage.pageFetch))

theorem startsWith_iff (p : List Char) : ∀ l, startsWith p l = true ↔ ∃ t, l = p ++ t := by
  induction p with
  | nil => intro l; simp [startsWith]
  | cons a ps ih =>
    intro l
    cases l with
    | nil =>
      simp only [startsWith]
      constructor
      · intro h; cases h
      · rintro ⟨t, h⟩; cases h
    | cons c cs =>
      simp only [startsWith, Bool.and_eq_true, decide_eq_true_eq, ih cs, List.cons_append]
      constructor
      · rintro ⟨rfl, t, rfl⟩; exact ⟨t, rfl⟩
      · rintro ⟨t, h⟩
        injection h with h1 h2
        exact ⟨h1.symm, t, h2⟩

theorem takeId_some {l id : List Char} (h : App.takeId l = some id) :
    id = l.take 11 ∧ id.length = 11 ∧ id.all isIdChar = true := by
  unfold App.takeId at h
  split at h
  next hcond =>
    obtain ⟨hlen, hall⟩ := Bool.and_eq_true _ _ |>.mp hcond
    injection h with h
    subst h
    exact ⟨rfl, by simpa using hlen, hall⟩
  next => cases h

theorem takeId_complete {idc rest : List Char} (h11 : 11 ≤ idc.length)
    (hall : idc.all isIdChar = true) :
    App.takeId (idc ++ rest) = some (idc.take 11) := by
  have htake : (idc ++ rest).take 11 = idc.take 11 := List.take_append_of_le_length h11
  have hlen : (idc.take 11).length = 11 := List.length_take_of_le h11
  have hall2 : (idc.take 11).all isIdChar = true := by
    rw [List.all_eq_true] at hall ⊢
    intro x hx
    exact hall x (List.mem_of_mem_take hx)
  unfold App.takeId
  rw [htake]
  simp [hlen, hall2]

theorem tryHere_some {l id : List Char} (h : App.tryHere l = some id) :
    ∃ key rest, (key = keyV ∨ key = keyShort) ∧ l = key ++ (id ++ rest) ∧
      id.length = 11 ∧ id.all isIdChar = true := by
  unfold App.tryHere at h
  split at h
  next hv =>
    obtain ⟨t, rfl⟩ := (startsWith_iff keyV _).mp hv
    rw [List.drop_left' (show keyV.length = 2 from rfl)] at h
    obtain ⟨hid, hlen, hall⟩ := takeId_some h
    refine ⟨keyV, t.drop 11, Or.inl rfl, ?_, hlen, hall⟩
    subst hid
    rw [List.take_append_drop]
  next =>
    split at h
    next hs =>
      obtain ⟨t, rfl⟩ := (startsWith_iff keyShort _).mp hs
      rw [List.drop_left' (show keyShort.length = 9 from rfl)] at h
      obtain ⟨hid, hlen, hall⟩ := takeId_some h
      refine ⟨keyShort, t.drop 11, Or.inr rfl, ?_, hlen, hall⟩
      subst hid
      rw [List.take_append_drop]
    next => cases h

theorem tryHere_complete {key idc rest : List Char} (hkey : key = keyV ∨ key = keyShort)
    (h11 : 11 ≤ idc.length) (hall : idc.all isIdChar = true) :
    App.tryHere (key ++ (idc ++ rest)) = some (idc.take 11) := by
  rcases hkey with rfl | rfl
  · unfold App.tryHere
    rw [if_pos ((startsWith_iff keyV _).mpr ⟨_, rfl⟩),
      List.drop_left' (show keyV.length = 2 from rfl)]
    exact takeId_complete h11 hall
  · have hv : ¬ startsWith keyV (keyShort ++ (idc ++ rest)) = true := by
      simp [keyV, keyShort, startsWith]
    unfold App.tryHere
    rw [if_neg hv, if_pos ((startsWith_iff keyShort _).mpr ⟨_, rfl⟩),
      List.drop_left' (show keyShort.length = 9 from rfl)]
    exact takeId_complete h11 hall

theorem tryHere_nil : App.tryHere [] = none := rfl

theorem findMatch_some {l id : List Char} (h : App.findMatch l = some id) :
    ∃ pre key rest, (key = keyV ∨ key = keyShort) ∧ l = pre ++ (key ++ (id ++ rest)) ∧
      id.length = 11 ∧ id.all isIdChar = true := by
  induction l with
  | nil => simp [App.findMatch] at h
  | cons c cs ih =>
    simp only [App.findMatch] at h
    split at h
    next id2 htry =>
      injection h with h
      subst h
      obtain ⟨key, rest, hk, heq, hlen, hall⟩ := tryHere_some htry
      exact ⟨[], key, rest, hk, by simpa using heq, hlen, hall⟩
    next htry =>
      obtain ⟨pre, key, rest, hk, heq, hlen, hall⟩ := ih h
      exact ⟨c :: pre, key, rest, hk, by simp [heq], hlen, hall⟩

theorem findMatch_append_isSome {tail : List Char} (h : (App.tryHere tail).isSome = true) :
    ∀ pre, (App.findMatch (pre ++ tail)).isSome = true := by
  intro pre
  induction pre with
  | nil =>
    cases htail : tail with
    | nil => rw [htail, tryHere_nil] at h; cases h
    | cons c cs =>
      rw [htail] at h
      simp only [List.nil_append, App.findMatch]
      split
      · rfl
      next htry => rw [htry] at h; cases h
  | cons c pre ih =>
    simp only [List.cons_append, App.findMatch]
    split
    · rfl
    · exact ih

theorem findMatch_leftmost :
    ∀ (p : Nat) (l id : List Char),
      (∀ i ∈ List.range p, App.tryHere (l.drop i) = none) →
      App.tryHere (l.drop p) = some id →
      App.findMatch l = some id := by
  intro p
  induction p with
  | zero =>
    intro l id _ h
    rw [List.drop_zero] at h
    cases l with
    | nil => rw [tryHere_nil] at h; cases h
    | cons c cs =>
      simp only [App.findMatch]
      rw [h]
  | succ p ih =>
    intro l id hnone h
    have h0 : App.tryHere l = none := by simpa using hnone 0 (by simp)
    cases l with
    | nil =>
      rw [List.drop_nil, tryHere_nil] at h
      cases h
    | cons c cs =>
      simp only [App.findMatch]
      rw [h0]
      show App.findMatch cs = some id
      refine ih cs id (fun i hi => ?_) (by simpa [List.drop_succ_cons] using h)
      have hmem : i + 1 ∈ List.range (p + 1) := by
        simp only [List.mem_range] at hi ⊢
        omega
      simpa [List.drop_succ_cons] using hnone (i + 1) hmem

/-- C1: a URL is classified as a video exactly when it contains `v=` or
`youtu.be/` immediately followed by 11 characters drawn from the class
of letters, digits, underscore and hyphen; the returned id is such an
11-character block sitting right after one of the two markers; a URL
classified as no video goes to the page branch (its first external call
is the page fetch); and the classification is host independent: the
example.com watch URL yields the id dQw4w9WgXcQ. -/
theorem C1_video_url_classification :
    (∀ url : String,
      ((App.extract_video_id url).isSome = true ↔ videoPattern url.data) ∧
      (∀ id, App.extract_video_id url = some id →
        id.data.length = 11 ∧ id.data.all isIdChar = true ∧
        ∃ pre key rest, (key = keyV ∨ key = keyShort) ∧
          url.data = pre ++ (key ++ (id.data ++ rest))) ∧
      (∀ fp ft g, url ≠ "" → App.extract_video_id url = none →
        (App.run fp ft g url).2.head? = some (Effect.fetchPage url))) ∧
    App.extract_video_id "https://example.com/watch?v=dQw4w9WgXcQ" = some "dQw4w9WgXcQ" := by
  constructor
  · intro url
    refine ⟨⟨?_, ?_⟩, ?_, ?_⟩
    · intro h
      unfold App.extract_video_id at h
      cases hfm : App.findMatch url.data with
      | none => rw [hfm] at h; cases h
      | some id =>
        obtain ⟨pre, key, rest, hk, heq, hlen, hall⟩ := findMatch_some hfm
        exact ⟨pre, key, id, rest, hk, heq, hlen, hall⟩
    · rintro ⟨pre, key, idc, rest, hk, heq, hlen, hall⟩
      have htry : (App.tryHere (key ++ (idc ++ rest))).isSome = true := by
        rw [tryHere_complete hk (by omega) hall]
        rfl
      have hfm := findMatch_append_isSome htry pre
      rw [← heq] at hfm
      unfold App.extract_video_id
      cases hx : App.findMatch url.data with
      | none => rw [hx] at hfm; cases hfm
      | some id => rfl
    · intro id hid
      unfold App.extract_video_id at hid
      cases hfm : App.findMatch url.data with
      | none => rw [hfm] at hid; cases hid
      | some l =>
        rw [hfm] at hid
        injection hid with hid
        obtain ⟨pre, key, rest, hk, heq, hlen, hall⟩ := findMatch_some hfm
        subst hid
        exact ⟨hlen, hall, pre, key, rest, hk, heq⟩
    · intro fp ft g hurl hvid
      unfold App.run
      rw [if_neg hurl, hvid]
      cases hfp : fp url with
      | error e => rfl
      | ok resp => cases hg : g (App.directPrompt (App.pageText resp.body)) <;> simp [hg]
  · decide

/-- C1 witness: the concrete watch URL of the claim satisfies the video
pattern, via the classification theorem evaluated on it. -/
theorem C1_video_url_classification_witness :
    videoPattern ("https://example.com/watch?v=dQw4w9WgXcQ" : String).data :=
  ((C1_video_url_classification.1 "https://example.com/watch?v=dQw4w9WgXcQ").1).mp (by decide)

/-- C9: the pattern has no right boundary check. Whenever the URL is
some prefix, then `v=` or `youtu.be/`, then 12 or more characters of
the id class, and no earlier position matches the pattern, the
extractor still classifies the URL as a video and returns the first 11
of those characters (the leftmost match, truncated to 11). -/
theorem C9_overlong_id_truncation :
    ∀ (url : String) (pre key run rest : List Char),
      (key = keyV ∨ key = keyShort) →
      url.data = pre ++ (key ++ (run ++ rest)) →
      run.all isIdChar = true →
      12 ≤ run.length →
      (∀ i ∈ List.range pre.length, App.tryHere (url.data.drop i) = none) →
      App.extract_video_id url = some (String.mk (run.take 11)) := by
  intro url pre key run rest hkey heq hall h12 hnone
  have htry : App.tryHere (url.data.drop pre.length) = some (run.take 11) := by
    rw [heq, List.drop_left]
    exact tryHere_complete hkey (by omega) hall
  have hfm : App.findMatch url.data = some (run.take 11) :=
    findMatch_leftmost pre.length url.data (run.take 11) hnone htry
  unfold App.extract_video_id
  rw [hfm]
  rfl

/-- C9 witness: a URL with 12 id characters after `v=` is classified as
a video with the truncated 11-character id, via the truncation theorem
evaluated on it. -/
theorem C9_overlong_id_truncation_witness :
    App.extract_video_id "v=abcdefghijkl" = some "abcdefghijk" := by
  have h := C9_overlong_id_truncation "v=abcdefghijkl" [] keyV
    ("abcdefghijkl" : String).data [] (Or.inl rfl) (by decide) (by decide) (by decide)
    (by decide)
  rw [h]
  decide

theorem pyJoin_space_eq_specJoin : ∀ l, pyJoin " " l = specJoin l := by
  intro l
  induction l with
  | nil => rfl
  | cons s rest ih =>
    cases rest with
    | nil => rfl
    | cons s2 rest2 =>
      show s ++ " " ++ pyJoin " " (s2 :: rest2) = s ++ " " ++ specJoin (s2 :: rest2)
      rw [ih]

/-- C2: for a recognized video URL whose transcript fetch succeeds, the
content handed to the generation call is the transcript join, which
equals the text fields of the records joined with single spaces in
their original order (the join rule written from the spec); in
particular the three records Hello, world, today give the content
Hello world today. -/
theorem C2_transcript_content_join :
    (∀ segs : List Segment, App.joinTranscript segs = specJoin (segs.map Segment.text)) ∧
    (∀ fp ft g url vid segs, url ≠ "" → App.extract_video_id url = some vid →
      ft vid = Except.ok segs →
      (App.run fp ft g url).2 =
        [Effect.fetchTranscript vid,
         Effect.gen (App.directPrompt (App.joinTranscript segs))]) ∧
    App.joinTranscript [⟨"Hello"⟩, ⟨"world"⟩, ⟨"today"⟩] = "Hello world today" := by
  refine ⟨?_, ?_, by decide⟩
  · intro segs
    unfold App.joinTranscript
    exact pyJoin_space_eq_specJoin _
  · intro fp ft g url vid segs hurl hvid hft
    unfold App.run
    rw [if_neg hurl]
    simp only [hvid, hft]
    cases hg : g (App.directPrompt (App.joinTranscript segs)) <;> simp [hg]

/-- C2 witness: the end-to-end scenario of the claim, with the watch
URL, a transcript oracle returning the three records and a successful
generation oracle, evaluated through the join theorem. -/
theorem C2_transcript_content_join_witness :
    (App.run (fun _ => Except.error ⟨"E", "e"⟩)
      (fun _ => Except.ok [⟨"Hello"⟩, ⟨"world"⟩, ⟨"today"⟩])
      (fun _ => Except.ok "a summary")
      "https://example.com/watch?v=dQw4w9WgXcQ").2 =
      [Effect.fetchTranscript "dQw4w9WgXcQ",
       Effect.gen (App.directPrompt
         (App.joinTranscript [⟨"Hello"⟩, ⟨"world"⟩, ⟨"today"⟩]))] :=
  C2_transcript_content_join.2.1 _ _ _ "https://example.com/watch?v=dQw4w9WgXcQ"
    "dQw4w9WgXcQ" _ (by decide) (by decide) rfl

mutual
theorem findTagNode_isSome_eq (t : String) :
    ∀ h : Html, (App.findTagNode t h).isSome = containsTagNode t h
  | .text s => rfl
  | .elem tag cs => by
    have hl := findTagList_isSome_eq t cs
    simp only [App.findTagNode, containsTagNode]
    split
    next heq => simp [heq]
    next heq => simp [hl, heq]
theorem findTagList_isSome_eq (t : String) :
    ∀ l : HtmlList, (App.findTagList t l).isSome = containsTagList t l
  | .nil => rfl
  | .cons c cs => by
    have hn := findTagNode_isSome_eq t c
    have hl := findTagList_isSome_eq t cs
    simp only [App.findTagList, containsTagList]
    split
    next m hm => rw [← hn, hm]; rfl
    next hm => rw [← hn, hm, ← hl]; rfl
end

theorem soupFind_isSome_eq (soup : Html) :
    (App.soupFind "main" soup).isSome = soupHasMain soup := by
  cases soup with
  | text s => rfl
  | elem tag cs => exact findTagList_isSome_eq "main" cs

/-- C3: the page branch extracts the joined stripped strings of the
first main element whenever the page has a main element (written as a
spec-side containment check), and the joined stripped strings of the
whole page otherwise; the main element takes precedence over the
whole-page fallback whenever it is present, and both branches use the
same joining rule. -/
theorem C3_main_content_precedence :
    ∀ soup : Html,
      (soupHasMain soup = true → ∃ m, App.soupFind "main" soup = some m ∧
        App.pageText soup = pyJoin " " (App.strippedStrings m)) ∧
      (soupHasMain soup = false → App.soupFind "main" soup = none ∧
        App.pageText soup = pyJoin " " (App.strippedStrings soup)) := by
  intro soup
  constructor
  · intro h
    rw [← soupFind_isSome_eq] at h
    cases hf : App.soupFind "main" soup with
    | none => rw [hf] at h; cases h
    | some m =>
      refine ⟨m, rfl, ?_⟩
      unfold App.pageText
      rw [hf]
  · intro h
    rw [← soupFind_isSome_eq] at h
    cases hf : App.soupFind "main" soup with
    | some m => rw [hf] at h; cases h
    | none =>
      refine ⟨rfl, ?_⟩
      unfold App.pageText
      rw [hf]

/-- C3 witness: a concrete page with a main element nested in its body
takes the main branch, via the precedence theorem evaluated on it. -/
theorem C3_main_content_precedence_witness :
    ∃ m, App.soupFind "main"
        (Html.elem "html" (.cons (.elem "body" (.cons (.text "  hi ")
          (.cons (.elem "main" (.cons (.text " inner x ") .nil))
          (.cons (.text "tail") .nil)))) .nil)) = some m ∧
      App.pageText
        (Html.elem "html" (.cons (.elem "body" (.cons (.text "  hi ")
          (.cons (.elem "main" (.cons (.text " inner x ") .nil))
          (.cons (.text "tail") .nil)))) .nil)) = pyJoin " " (App.strippedStrings m) :=
  (C3_main_content_precedence
    (Html.elem "html" (.cons (.elem "body" (.cons (.text "  hi ")
      (.cons (.elem "main" (.cons (.text " inner x ") .nil))
      (.cons (.text "tail") .nil)))) .nil))).1 (by decide)

/-- C7: on the empty URL both applications show the message asking for
a URL and perform no external call at all (no page fetch, no transcript
fetch, no generation call). -/
theorem C7_empty_url_guard :
    ∀ fp ft g mr,
      App.run fp ft g "" = (Outcome.errorMsg "Please enter a URL", []) ∧
      Taapp.run fp ft g mr "" = (Outcome.errorMsg "Please enter a URL", []) := by
  intro fp ft g mr
  exact ⟨rfl, rfl⟩

theorem tryHere_app_taapp (l : List Char) : App.tryHere l = Taapp.tryHere l := rfl

theorem findMatch_app_taapp : ∀ l, App.findMatch l = Taapp.findMatch l := by
  intro l
  induction l with
  | nil => rfl
  | cons c cs ih =>
    simp only [App.findMatch, Taapp.findMatch, tryHere_app_taapp]
    cases Taapp.tryHere (c :: cs) <;> simp [ih]

mutual
theorem findTagNode_app_taapp (t : String) :
    ∀ h : Html, App.findTagNode t h = Taapp.findTagNode t h
  | .text s => rfl
  | .elem tag cs => by
    have hl := findTagList_app_taapp t cs
    simp only [App.findTagNode, Taapp.findTagNode, hl]
theorem findTagList_app_taapp (t : String) :
    ∀ l : HtmlList, App.findTagList t l = Taapp.findTagList t l
  | .nil => rfl
  | .cons c cs => by
    have hn := findTagNode_app_taapp t c
    have hl := findTagList_app_taapp t cs
    simp only [App.findTagList, Taapp.findTagList, hn, hl]
end

mutual
theorem nodeStrings_app_taapp :
    ∀ h : Html, App.nodeStrings h = Taapp.nodeStrings h
  | .text s => rfl
  | .elem tag cs => by
    have hl := listStrings_app_taapp cs
    simp only [App.nodeStrings, Taapp.nodeStrings, hl]
theorem listStrings_app_taapp :
    ∀ l : HtmlList, App.listStrings l = Taapp.listStrings l
  | .nil => rfl
  | .cons c cs => by
    have hn := nodeStrings_app_taapp c
    have hl := listStrings_app_taapp cs
    simp only [App.listStrings, Taapp.listStrings, hn, hl]
end

theorem strippedStrings_app_taapp (n : Html) :
    App.strippedStrings n = Taapp.strippedStrings n := by
  unfold App.strippedStrings Taapp.strippedStrings
  rw [nodeStrings_app_taapp]

theorem soupFind_app_taapp (t : String) (soup : Html) :
    App.soupFind t soup = Taapp.soupFind t soup := by
  cases soup with
  | text s => rfl
  | elem tag cs => exact findTagList_app_taapp t cs

theorem pageText_app_taapp (soup : Html) : App.pageText soup = Taapp.pageText soup := by
  unfold App.pageText Taapp.pageText
  rw [soupFind_app_taapp]
  cases Taapp.soupFind "main" soup with
  | some m => simp [strippedStrings_app_taapp]
  | none => simp [strippedStrings_app_taapp]

/-- C4 counterexample: with a fetch oracle answering 404 and body text
Not Found, the pipeline parses the error body, calls generation on it
and displays the generated summary, so the claimed behavior is false:
the code never inspects response.status. -/
theorem C4_counterexample : ¬ C4claim := by
  intro h
  have h2 := h (fun _ => Except.ok ⟨404, Html.elem "html" (.cons (.text "Not Found") .nil)⟩)
    (fun _ => Except.error ⟨"E", "e"⟩) (fun _ => Except.ok "a summary")
    "https://example.com/missing" 404 (Html.elem "html" (.cons (.text "Not Found") .nil))
    (by decide) (by decide) rfl (by decide)
  exact h2.1 "a summary" (by decide)

/-- C4 amended: the code ignores the HTTP status entirely. For every
non-video URL whose fetch returns a response, of any status, the body
is parsed and the generation call runs on its extracted text, the
result being displayed on success; only a network-level exception from
the fetch aborts the run, and then with the one generic error message,
not a distinct fetch error kind. -/
theorem C4_amended_status_ignored :
    ∀ fp ft g url, url ≠ "" → App.extract_video_id url = none →
      (∀ st body, fp url = Except.ok ⟨st, body⟩ →
        (App.run fp ft g url).2 =
          [Effect.fetchPage url, Effect.gen (App.directPrompt (App.pageText body))] ∧
        (App.run fp ft g url).1 =
          (match g (App.directPrompt (App.pageText body)) with
           | Except.ok s => Outcome.displayed s
           | Except.error e => Outcome.errorMsg (App.errorText e))) ∧
      (∀ e, fp url = Except.error e →
        App.run fp ft g url = (Outcome.errorMsg (App.errorText e), [Effect.fetchPage url])) := by
  intro fp ft g url hurl hvid
  constructor
  · intro st body hfp
    unfold App.run
    rw [if_neg hurl]
    simp only [hvid, hfp]
    cases hg : g (App.directPrompt (App.pageText body)) <;> simp [hg]
  · intro e hfp
    unfold App.run
    rw [if_neg hurl]
    simp only [hvid, hfp]

/-- C4 amended witness: the 404 scenario evaluated through the amended
theorem: the fetch is followed by a generation call on the text of the
404 body. -/
theorem C4_amended_status_ignored_witness :
    (App.run (fun _ => Except.ok ⟨404, Html.elem "html" (.cons (.text "Not Found") .nil)⟩)
      (fun _ => Except.error ⟨"E", "e"⟩) (fun _ => Except.ok "a summary")
      "https://example.com/missing").2 =
      [Effect.fetchPage "https://example.com/missing",
       Effect.gen (App.directPrompt
         (App.pageText (Html.elem "html" (.cons (.text "Not Found") .nil))))] :=
  ((C4_amended_status_ignored _ _ _ "https://example.com/missing"
    (by decide) (by decide)).1 404 _ rfl).1

/-- C5 counterexample: app.py performs the single direct call on a page
text of 5 units even against the bound 0, so the single-call path is
not guarded by any size bound. -/
theorem C5_counterexample : ¬ C5claim := by
  intro h
  have h2 := (h 0 (fun _ => Except.ok ⟨200, Html.elem "html" (.cons (.text "hello") .nil)⟩)
    (fun _ => Except.error ⟨"E", "e"⟩) (fun _ => Except.ok "s") (fun _ => Except.ok "s")
    "https://example.com/page" "hello").1
  exact absurd (h2 (by decide)) (by decide)

/-- C5 amended: neither application branches on size. app.py always
performs exactly one direct generation call on the whole extracted
text, for pages and for videos alike; taapp.py always runs the
map-reduce chain on the whole transcript for a recognized video and
always one direct call for a page; no size bound is consulted
anywhere. -/
theorem C5_amended_no_size_branch :
    ∀ fp ft g mr url st body segs vid, url ≠ "" →
      (App.extract_video_id url = none → fp url = Except.ok ⟨st, body⟩ →
        (App.run fp ft g url).2 =
          [Effect.fetchPage url, Effect.gen (App.directPrompt (App.pageText body))]) ∧
      (App.extract_video_id url = some vid → ft vid = Except.ok segs →
        (App.run fp ft g url).2 =
          [Effect.fetchTranscript vid,
           Effect.gen (App.directPrompt (App.joinTranscript segs))]) ∧
      (Taapp.extract_video_id url = some vid → ft vid = Except.ok segs →
        (Taapp.run fp ft g mr url).2 =
          [Effect.fetchTranscript vid, Effect.genMapReduce (Taapp.joinTranscript segs)]) ∧
      (Taapp.extract_video_id url = none → fp url = Except.ok ⟨st, body⟩ →
        (Taapp.run fp ft g mr url).2 =
          [Effect.fetchPage url, Effect.gen (Taapp.sitePrompt (Taapp.pageText body))]) := by
  intro fp ft g mr url st body segs vid hurl
  refine ⟨?_, ?_, ?_, ?_⟩
  · intro hvid hfp
    unfold App.run
    rw [if_neg hurl]
    simp only [hvid, hfp]
    cases hg : g (App.directPrompt (App.pageText body)) <;> simp [hg]
  · intro hvid hft
    unfold App.run
    rw [if_neg hurl]
    simp only [hvid, hft]
    cases hg : g (App.directPrompt (App.joinTranscript segs)) <;> simp [hg]
  · intro hvid hft
    unfold Taapp.run
    rw [if_neg hurl]
    simp only [hvid, hft]
    cases hg : mr (Taapp.joinTranscript segs) <;> simp [hg]
  · intro hvid hfp
    unfold Taapp.run
    rw [if_neg hurl]
    simp only [hvid, hfp]
    cases hg : g (Taapp.sitePrompt (Taapp.pageText body)) <;> simp [hg]

/-- C5 amended witness: a 10-unit page text still goes through the one
direct call of app.py, via the amended theorem evaluated on it. -/
theorem C5_amended_no_size_branch_witness :
    (App.run (fun _ => Except.ok ⟨200, Html.elem "html" (.cons (.text "0123456789") .nil)⟩)
      (fun _ => Except.error ⟨"E", "e"⟩) (fun _ => Except.ok "s")
      "https://example.com/page").2 =
      [Effect.fetchPage "https://example.com/page",
       Effect.gen (App.directPrompt
         (App.pageText (Html.elem "html" (.cons (.text "0123456789") .nil))))] :=
  ((C5_amended_no_size_branch _ _ _ (fun _ => Except.ok "s") "https://example.com/page"
      200 (Html.elem "html" (.cons (.text "0123456789") .nil)) [] "x"
      (by decide)).1 (by decide) rfl)

/-- C6 counterexample: a transcripts-disabled failure and a connection
failure whose exceptions render to the same text produce literally the
same caller-visible outcome (the one generic message), so no function
of the outcome can name them differently: the code has no distinct
error kinds. -/
theorem C6_counterexample : ¬ C6claim := by
  rintro ⟨f, h1, h2⟩
  have e1 : f (Outcome.errorMsg "Failed to summarize content: boom")
      = "TranscriptUnavailableError" := by
    have h := h1 (fun _ => Except.error ⟨"ConnectionError", "boom"⟩)
      (fun _ => Except.error ⟨"TranscriptsDisabled", "boom"⟩) (fun _ => Except.ok "s")
      "https://youtu.be/dQw4w9WgXcQ" "dQw4w9WgXcQ" ⟨"TranscriptsDisabled", "boom"⟩
      (by decide) (by decide) rfl
    have hr : (App.run (fun _ => Except.error ⟨"ConnectionError", "boom"⟩)
        (fun _ => Except.error ⟨"TranscriptsDisabled", "boom"⟩) (fun _ => Except.ok "s")
        "https://youtu.be/dQw4w9WgXcQ").1
        = Outcome.errorMsg "Failed to summarize content: boom" := by decide
    rw [hr] at h
    exact h
  have e2 : f (Outcome.errorMsg "Failed to summarize content: boom") = "FetchError" := by
    have h := h2 (fun _ => Except.error ⟨"ConnectionError", "boom"⟩)
      (fun _ => Except.error ⟨"TranscriptsDisabled", "boom"⟩) (fun _ => Except.ok "s")
      "https://example.com/page" ⟨"ConnectionError", "boom"⟩
      (by decide) (by decide) rfl
    have hr : (App.run (fun _ => Except.error ⟨"ConnectionError", "boom"⟩)
        (fun _ => Except.error ⟨"TranscriptsDisabled", "boom"⟩) (fun _ => Except.ok "s")
        "https://example.com/page").1
        = Outcome.errorMsg "Failed to summarize content: boom" := by decide
    rw [hr] at h
    exact h
  rw [e1] at e2
  exact absurd e2 (by decide)

/-- C6 amended: a recognized video URL whose transcript fetch raises is
surfaced through the one catch-all handler as the generic message
built from the exception text, the same message form a page-fetch
failure produces: whenever the two exception texts coincide the two
caller-visible outcomes coincide, so no error kind distinguishes
them. -/
theorem C6_amended_same_generic_outcome :
    ∀ fp ft g url vid e, url ≠ "" →
      App.extract_video_id url = some vid → ft vid = Except.error e →
      (App.run fp ft g url).1
        = Outcome.errorMsg ("Failed to summarize content: " ++ e.msg) ∧
      ∀ fp2 ft2 g2 url2 e2, url2 ≠ "" → App.extract_video_id url2 = none →
        fp2 url2 = Except.error e2 → e2.msg = e.msg →
        (App.run fp2 ft2 g2 url2).1 = (App.run fp ft g url).1 := by
  intro fp ft g url vid e hurl hvid hft
  have hout : (App.run fp ft g url).1
      = Outcome.errorMsg ("Failed to summarize content: " ++ e.msg) := by
    unfold App.run
    rw [if_neg hurl]
    simp only [hvid, hft]
    rfl
  refine ⟨hout, ?_⟩
  intro fp2 ft2 g2 url2 e2 hurl2 hvid2 hfp2 hmsg
  have hout2 : (App.run fp2 ft2 g2 url2).1
      = Outcome.errorMsg ("Failed to summarize content: " ++ e2.msg) := by
    unfold App.run
    rw [if_neg hurl2]
    simp only [hvid2, hfp2]
    rfl
  rw [hout, hout2, hmsg]

/-- C6 amended witness: the transcripts-disabled run and the connection
failure run with equal exception texts give equal outcomes, via the
amended theorem evaluated on them. -/
theorem C6_amended_same_generic_outcome_witness :
    (App.run (fun _ => Except.error ⟨"ConnectionError", "boom"⟩)
      (fun _ => Except.error ⟨"TranscriptsDisabled", "boom"⟩) (fun _ => Except.ok "s")
      "https://youtu.be/dQw4w9WgXcQ").1
      = Outcome.errorMsg ("Failed to summarize content: "
          ++ Exn.msg ⟨"TranscriptsDisabled", "boom"⟩) :=
  (C6_amended_same_generic_outcome _ _ _ "https://youtu.be/dQw4w9WgXcQ" "dQw4w9WgXcQ"
    ⟨"TranscriptsDisabled", "boom"⟩ (by decide) (by decide) rfl).1

theorem app_run_call_counts (fp : String → Except Exn Response)
    (ft : String → Except Exn (List Segment)) (g : String → Except Exn String)
    (url : String) :
    (App.run fp ft g url).2.countP isFetchPageEff ≤ 1 ∧
    (App.run fp ft g url).2.countP isFetchTranscriptEff ≤ 1 ∧
    (App.run fp ft g url).2.countP isGenEff ≤ 1 := by
  unfold App.run
  by_cases hurl : url = ""
  · simp [hurl]
  · rw [if_neg hurl]
    cases hv : App.extract_video_id url with
    | some vid =>
      cases hft : ft vid with
      | error e =>
        simp [hft, List.countP_cons, isFetchPageEff, isFetchTranscriptEff, isGenEff]
      | ok segs =>
        cases hg : g (App.directPrompt (App.joinTranscript segs)) <;>
          simp [hft, hg, List.countP_cons, isFetchPageEff, isFetchTranscriptEff, isGenEff]
    | none =>
      cases hfp : fp url with
      | error e =>
        simp [hfp, List.countP_cons, isFetchPageEff, isFetchTranscriptEff, isGenEff]
      | ok resp =>
        cases hg : g (App.directPrompt (App.pageText resp.body)) <;>
          simp [hfp, hg, List.countP_cons, isFetchPageEff, isFetchTranscriptEff, isGenEff]

theorem taapp_run_call_counts (fp : String → Except Exn Response)
    (ft : String → Except Exn (List Segment)) (g : String → Except Exn String)
    (mr : String → Except Exn String) (url : String) :
    (Taapp.run fp ft g mr url).2.countP isFetchPageEff ≤ 1 ∧
    (Taapp.run fp ft g mr url).2.countP isFetchTranscriptEff ≤ 1 ∧
    (Taapp.run fp ft g mr url).2.countP isGenEff ≤ 1 := by
  unfold Taapp.run
  by_cases hurl : url = ""
  · simp [hurl]
  · rw [if_neg hurl]
    cases hv : Taapp.extract_video_id url with
    | some vid =>
      cases hft : ft vid with
      | error e =>
        simp [hft, List.countP_cons, isFetchPageEff, isFetchTranscriptEff, isGenEff]
      | ok segs =>
        cases hg : mr (Taapp.joinTranscript segs) <;>
          simp [hft, hg, List.countP_cons, isFetchPageEff, isFetchTranscriptEff, isGenEff]
    | none =>
      cases hfp : fp url with
      | error e =>
        simp [hfp, List.countP_cons, isFetchPageEff, isFetchTranscriptEff, isGenEff]
      | ok resp =>
        cases hg : g (Taapp.sitePrompt (Taapp.pageText resp.body)) <;>
          simp [hfp, hg, List.countP_cons, isFetchPageEff, isFetchTranscriptEff, isGenEff]

/-- C8 counterexample: a transcript failure and a page-fetch failure
with the same exception text give the identical caller-visible outcome,
so no stage function of the outcome exists and the message does not
identify the failing stage; the claim as a whole is false. -/
theorem C8_counterexample : ¬ C8claim := by
  rintro ⟨-, -, f, h1, h2⟩
  have e1 : f (Outcome.errorMsg "Failed to summarize content: boom")
      = Stage.transcriptFetch := by
    have h := h1 (fun _ => Except.error ⟨"ConnectionError", "boom"⟩)
      (fun _ => Except.error ⟨"TranscriptsDisabled", "boom"⟩) (fun _ => Except.ok "s")
      "https://youtu.be/dQw4w9WgXcQ" "dQw4w9WgXcQ" ⟨"TranscriptsDisabled", "boom"⟩
      (by decide) (by decide) rfl
    have hr : (App.run (fun _ => Except.error ⟨"ConnectionError", "boom"⟩)
        (fun _ => Except.error ⟨"TranscriptsDisabled", "boom"⟩) (fun _ => Except.ok "s")
        "https://youtu.be/dQw4w9WgXcQ").1
        = Outcome.errorMsg "Failed to summarize content: boom" := by decide
    rw [hr] at h
    exact h
  have e2 : f (Outcome.errorMsg "Failed to summarize content: boom")
      = Stage.pageFetch := by
    have h := h2 (fun _ => Except.error ⟨"ConnectionError", "boom"⟩)
      (fun _ => Except.error ⟨"TranscriptsDisabled", "boom"⟩) (fun _ => Except.ok "s")
      "https://example.com/page" ⟨"ConnectionError", "boom"⟩
      (by decide) (by decide) rfl
    have hr : (App.run (fun _ => Except.error ⟨"ConnectionError", "boom"⟩)
        (fun _ => Except.error ⟨"TranscriptsDisabled", "boom"⟩) (fun _ => Except.ok "s")
        "https://example.com/page").1
        = Outcome.errorMsg "Failed to summarize content: boom" := by decide
    rw [hr] at h
    exact h
  rw [e1] at e2
  exact absurd e2 (by decide)

/-- C8 amended: every failure of an external call is surfaced as
exactly one human-readable message, the generic one built from the
exception text, never swallowed, and no external call is issued twice
in a run (no retries) in either application; but the surfaced message
does not name the failing stage beyond whatever the exception text
itself says. -/
theorem C8_amended_single_message_no_retry :
    ∀ fp ft g mr url,
      ((App.run fp ft g url).2.countP isFetchPageEff ≤ 1 ∧
       (App.run fp ft g url).2.countP isFetchTranscriptEff ≤ 1 ∧
       (App.run fp ft g url).2.countP isGenEff ≤ 1) ∧
      ((Taapp.run fp ft g mr url).2.countP isFetchPageEff ≤ 1 ∧
       (Taapp.run fp ft g mr url).2.countP isFetchTranscriptEff ≤ 1 ∧
       (Taapp.run fp ft g mr url).2.countP isGenEff ≤ 1) ∧
      (∀ vid e, url ≠ "" → App.extract_video_id url = some vid →
        ft vid = Except.error e →
        (App.run fp ft g url).1 = Outcome.errorMsg (App.errorText e)) ∧
      (∀ e, url ≠ "" → App.extract_video_id url = none →
        fp url = Except.error e →
        (App.run fp ft g url).1 = Outcome.errorMsg (App.errorText e)) ∧
      (∀ vid segs e, url ≠ "" → App.extract_video_id url = some vid →
        ft vid = Except.ok segs →
        g (App.directPrompt (App.joinTranscript segs)) = Except.error e →
        (App.run fp ft g url).1 = Outcome.errorMsg (App.errorText e)) ∧
      (∀ st body e, url ≠ "" → App.extract_video_id url = none →
        fp url = Except.ok ⟨st, body⟩ →
        g (App.directPrompt (App.pageText body)) = Except.error e →
        (App.run fp ft g url).1 = Outcome.errorMsg (App.errorText e)) := by
  intro fp ft g mr url
  refine ⟨app_run_call_counts fp ft g url, taapp_run_call_counts fp ft g mr url,
    ?_, ?_, ?_, ?_⟩
  · intro vid e hurl hvid hft
    unfold App.run
    rw [if_neg hurl]
    simp only [hvid, hft]
  · intro e hurl hvid hfp
    unfold App.run
    rw [if_neg hurl]
    simp only [hvid, hfp]
  · intro vid segs e hurl hvid hft hg
    unfold App.run
    rw [if_neg hurl]
    simp only [hvid, hft, hg]
  · intro st body e hurl hvid hfp hg
    unfold App.run
    rw [if_neg hurl]
    simp only [hvid, hfp, hg]

/-- C8 amended witness: a failing transcript fetch on the short video
URL surfaces as the one generic message, via the amended theorem
evaluated on it. -/
theorem C8_amended_single_message_no_retry_witness :
    (App.run (fun _ => Except.error ⟨"ConnectionError", "boom"⟩)
      (fun _ => Except.error ⟨"TranscriptsDisabled", "boom"⟩) (fun _ => Except.ok "s")
      "https://youtu.be/dQw4w9WgXcQ").1
      = Outcome.errorMsg (App.errorText ⟨"TranscriptsDisabled", "boom"⟩) :=
  (C8_amended_single_message_no_retry _ _ _ (fun _ => Except.ok "s")
    "https://youtu.be/dQw4w9WgXcQ").2.2.1 "dQw4w9WgXcQ" ⟨"TranscriptsDisabled", "boom"⟩
    (by decide) (by decide) rfl

/-- C10: the two applications agree on content extraction: for every
URL the two extract_video_id functions return the same result, for
every parsed page the two page branches compute the same extracted
text (same main-element preference, same joining rule), and for every
transcript the two joins build the same content. The two programs then
differ only in how this extracted text is summarized. -/
theorem C10_extraction_agreement :
    (∀ url, App.extract_video_id url = Taapp.extract_video_id url) ∧
    (∀ soup, App.pageText soup = Taapp.pageText soup) ∧
    (∀ segs, App.joinTranscript segs = Taapp.joinTranscript segs) := by
  refine ⟨?_, pageText_app_taapp, fun segs => rfl⟩
  intro url
  unfold App.extract_video_id Taapp.extract_video_id
  rw [findMatch_app_taapp]
